import Mathlib

/-!
# Verification of the namesystem/blockstore tenure/signer core

Shallow embedding of the stacks-signer coordination run loop
(`stacks-signer/src/runloop.rs`) and of the Nakamoto tenure rules exercised by
`stackslib/src/chainstate/nakamoto/tests/node.rs`, together with proofs of the
spec's claims about them.

Conventions:
* machine integers (`u32`, `u64`, `u128`) are modelled as `Nat`; the one place
  the source uses wrapping arithmetic (`wrapping_add` on a `u64`) is modelled
  with an explicit `% 2 ^ 64`;
* external collaborators (the stacks-node RPC client, the crypto library, the
  per-cycle `Signer` protocol engine) are modelled as oracle records whose
  query results are explicit inputs;
* Rust `HashMap`/`HashSet` values are modelled as functions / membership lists,
  since the source only uses them through insert and lookup.
-/

namespace Blockstore

/-! ## Client error model (`stacks-signer/src/client`, surface used by runloop.rs) -/

/-- The client errors that `runloop.rs` constructs or matches on.  Errors
raised by client queries themselves are abstracted as `queryFailure`. -/
inductive ClientError where
  | rewardSetNotYetCalculated (cycle : Nat)
  | corruptedRewardSet (cycle : Nat)
  | notRegistered
  | queryFailure (code : Nat)
deriving DecidableEq, Repr

/-- The backoff error wrapper (`backoff::Error`): a transient error is retried, a permanent one is not. -/
inductive BackoffError (E : Type) where
  | transient (e : E)
  | permanent (e : E)
deriving DecidableEq, Repr

/-- Whether a `backoff::Error` is the retryable (transient) variant. -/
def BackoffError.isTransient {E : Type} : BackoffError E → Bool
  | .transient _ => true
  | .permanent _ => false

/-! ## Reward set and client oracle -/

/-- One entry of a reward cycle's reward set, as consumed by
`get_stacks_node_info`: raw signing-key bytes and a slot weight. -/
structure RewardSetSignerEntry where
  signing_key : List Nat
  slots : Nat
deriving DecidableEq, Repr

/-- The slice of the signer `Config` that `runloop.rs` reads. -/
structure Config where
  is_mainnet : Bool
  event_timeout : Nat
deriving DecidableEq, Repr

/-- Oracle for the stacks-node client and the crypto library: each field is the
(pure, point-in-time) answer the external collaborator would give. -/
structure StacksClient where
  reward_set_calculated : Nat → Except ClientError Bool
  signer_address : Nat
  get_stackerdb_signer_slots : Nat → Except ClientError (List (Nat × Nat))
  get_reward_set_signers : Nat → Except ClientError (Option (List RewardSetSignerEntry))
  get_current_reward_cycle : Except ClientError Nat
  parse_ecdsa_pubkey : List Nat → Option Nat
  parse_stacks_pubkey : List Nat → Option Nat
  p2pkh_address : Bool → Nat → Nat

/-- The `StacksNodeInfo` record as assembled at the end of `get_stacks_node_info`. -/
structure StacksNodeInfo where
  reward_cycle : Nat
  signer_id : Nat
  signer_slot_id : Nat
  signer_set : Nat
  signer_addresses : List Nat
  signer_key_ids : Nat → List Nat
  public_keys_signers : Nat → Option Nat
  public_keys_key_ids : Nat → Option Nat

/-- The key ids `weight_start..weight_end` (half-open) of the Rust `for` loop. -/
def keyRange (start len : Nat) : List Nat :=
  (List.range len).map (fun j => start + j)

/-- Mutable state threaded through the reward-set entry loop of
`get_stacks_node_info`. -/
structure ResolveState where
  weight_end : Nat
  current_signer_id : Option Nat
  signer_addresses : List Nat
  signer_key_ids : Nat → List Nat
  pk_key_ids : Nat → Option Nat

/-- Initial loop state: `weight_end = 1`, empty maps. -/
def initResolveState : ResolveState :=
  { weight_end := 1
    current_signer_id := none
    signer_addresses := []
    signer_key_ids := fun _ => []
    pk_key_ids := fun _ => none }

/-- The inner `for key_id in weight_start..weight_end` loop: record the key id
in `public_keys.key_ids` and in the signer's `signer_key_ids` set. -/
def insertKeyIds (sid pk : Nat) (kids : List Nat) (st : ResolveState) : ResolveState :=
  kids.foldl
    (fun acc kid =>
      { acc with
        pk_key_ids := fun k => if k = kid then some pk else acc.pk_key_ids k
        signer_key_ids := fun s => if s = sid then kid :: acc.signer_key_ids sid
                                   else acc.signer_key_ids s })
    st

/-- The `for (i, entry) in reward_set_signers.iter().enumerate()` loop of
`get_stacks_node_info`: parse the entry's signing key (failures are transient
`CorruptedRewardSet` errors), derive its address, note whether it is the local
signer, and assign it the next contiguous block of key ids. -/
def resolveEntries (client : StacksClient) (is_mainnet : Bool) (reward_cycle : Nat)
    (current_addr : Nat) :
    List RewardSetSignerEntry → Nat → ResolveState →
    Except (BackoffError ClientError) ResolveState
  | [], _, st => .ok st
  | entry :: rest, i, st =>
    match client.parse_ecdsa_pubkey entry.signing_key with
    | none => .error (.transient (.corruptedRewardSet reward_cycle))
    | some ecdsa_pk =>
      match client.parse_stacks_pubkey entry.signing_key with
      | none => .error (.transient (.corruptedRewardSet reward_cycle))
      | some stacks_pk =>
        let stacks_address := client.p2pkh_address is_mainnet stacks_pk
        let signer_id := i
        let current_signer_id' :=
          if stacks_address = current_addr then some signer_id else st.current_signer_id
        let weight_start := st.weight_end
        let st' := insertKeyIds signer_id ecdsa_pk (keyRange weight_start entry.slots)
          { st with
            current_signer_id := current_signer_id'
            signer_addresses := stacks_address :: st.signer_addresses
            weight_end := weight_start + entry.slots }
        resolveEntries client is_mainnet reward_cycle current_addr rest (i + 1) st'

/-- Source `RunLoop::get_stacks_node_info` (runloop.rs:79-174): resolve the signer
configuration for one reward cycle.  `Ok none` means "not registered for this
cycle"; every error path wraps a transient `backoff` error (the bare `?` on
`get_reward_set` goes through the backoff crate's `From` impl, which also
produces a transient error). -/
def get_stacks_node_info (cfg : Config) (client : StacksClient) (reward_cycle : Nat) :
    Except (BackoffError ClientError) (Option StacksNodeInfo) :=
  match (client.reward_set_calculated reward_cycle).mapError BackoffError.transient with
  | .error e => .error e
  | .ok reward_set_calculated =>
    if !reward_set_calculated then
      .error (.transient (.rewardSetNotYetCalculated reward_cycle))
    else
      let current_addr := client.signer_address
      let signer_set := reward_cycle % 2
      match (client.get_stackerdb_signer_slots signer_set).mapError BackoffError.transient with
      | .error e => .error e
      | .ok slots =>
        match slots.findIdx? (fun entry => entry.1 == current_addr) with
        | none => .ok none
        | some signer_slot_id =>
          match (client.get_reward_set_signers reward_cycle).mapError BackoffError.transient with
          | .error e => .error e
          | .ok none => .ok none
          | .ok (some reward_set_signers) =>
            match resolveEntries client cfg.is_mainnet reward_cycle current_addr
                reward_set_signers 0 initResolveState with
            | .error e => .error e
            | .ok st =>
              match st.current_signer_id with
              | none => .ok none
              | some signer_id =>
                .ok (some
                  { reward_cycle := reward_cycle
                    signer_id := signer_id
                    signer_slot_id := signer_slot_id
                    signer_set := signer_set
                    signer_addresses := st.signer_addresses
                    signer_key_ids := st.signer_key_ids
                    public_keys_signers := fun _ => none
                    public_keys_key_ids := st.pk_key_ids })

/-! ## Per-cycle signer machine (spec-modelled surface) -/

/-- Lifecycle state of a per-cycle signer machine.  The run loop only ever
compares against `TenureExceeded`; all live states are collapsed into `idle`. -/
inductive SignerLifecycle where
  | idle
  | tenureExceeded
deriving DecidableEq, Repr

/-- Modelled from the spec: the per-cycle `Signer` machine (its `signer.rs` is
not under `src/`; §4.3 describes the surface its callers rely on).  Only the
fields `runloop.rs` reads or writes are modelled: `reward_cycle`, `signer_id`,
the lifecycle `state`, and the FIFO `commands` queue (`push_back` enqueues at
the tail). -/
structure Signer where
  reward_cycle : Nat
  signer_id : Nat
  state : SignerLifecycle
  commands : List Nat
deriving DecidableEq, Repr

/-- Modelled from the spec: `Signer::new` ("created when a reward cycle's
committee membership becomes resolvable") builds a fresh machine for the
resolved cycle, with an empty command queue and a live lifecycle state. -/
def Signer.new (info : StacksNodeInfo) : Signer :=
  { reward_cycle := info.reward_cycle
    signer_id := info.signer_id
    state := .idle
    commands := [] }

/-- Oracle for the spec-modelled `Signer` protocol methods: each returns the
mutated machine, plus the error the Rust method returns where it is
fallible. -/
structure SignerEnv where
  update_dkg : Signer → Signer × Option ClientError
  process_event : Signer → Option Nat → Signer × Option ClientError
  process_next_command : Signer → Signer

/-! ## The run loop's signer map (`HashMap<u64, Signer>` keyed by cycle % 2) -/

/-- The run loop's `stacks_signers` map.  Every key the source uses is a
reward-cycle parity, so the map is two optional slots. -/
structure SignerMap where
  slot0 : Option Signer
  slot1 : Option Signer
deriving DecidableEq, Repr

def SignerMap.get (m : SignerMap) (k : Nat) : Option Signer :=
  if k % 2 = 0 then m.slot0 else m.slot1

def SignerMap.insert (m : SignerMap) (k : Nat) (s : Signer) : SignerMap :=
  if k % 2 = 0 then { m with slot0 := some s } else { m with slot1 := some s }

def SignerMap.isEmpty (m : SignerMap) : Bool :=
  m.slot0.isNone && m.slot1.isNone

/-! ## The coordination run loop (`runloop.rs`) -/

/-- The runloop.rs `State`. -/
inductive RunLoopState where
  | uninitialized
  | initialized
deriving DecidableEq, Repr

/-- The `RunLoop` struct: configuration, the per-parity signer map, and the
initialization state.  The `stacks_client` is passed separately as the
`StacksClient` oracle. -/
structure RunLoop where
  config : Config
  stacks_signers : SignerMap
  state : RunLoopState
deriving Repr

/-- An operator command (`RunLoopCommand`): an opaque inner signer command and
the reward cycle it is declared for. -/
structure RunLoopCommand where
  command : Nat
  reward_cycle : Nat
deriving DecidableEq, Repr

/-- Source `RunLoop::refresh_signer_config` (runloop.rs:177-206): refresh one reward
cycle's machine.  The slot is left alone when it already holds a machine for
this exact cycle; otherwise the node info is resolved and, when registration
succeeds, a fresh machine replaces whatever occupied the slot. -/
def refresh_signer_config (client : StacksClient) (rl : RunLoop) (reward_cycle : Nat) :
    RunLoop × Option (BackoffError ClientError) :=
  let reward_index := reward_cycle % 2
  let needs_refresh :=
    match rl.stacks_signers.get reward_index with
    | some stacks_signer => if stacks_signer.reward_cycle = reward_cycle then false else true
    | none => true
  if needs_refresh then
    match get_stacks_node_info rl.config client reward_cycle with
    | .error e => (rl, some e)
    | .ok (some new_node_info) =>
      ({ rl with
          stacks_signers :=
            rl.stacks_signers.insert reward_index (Signer.new new_node_info) }, none)
    | .ok none => (rl, none)
  else
    (rl, none)

/-- One slot's share of the `for stacks_signer in self.stacks_signers.values_mut()`
DKG loop. -/
def updateDkgSlot (env : SignerEnv) : Option Signer → Option Signer × Option ClientError
  | none => (none, none)
  | some s =>
    let r := env.update_dkg s
    (some r.1, r.2)

/-- Running `update_dkg` over every live machine, stopping at the first error (the `?`
inside the refresh closure).  The Rust `HashMap` iteration order is
unspecified; slot 0 before slot 1 is fixed here. -/
def updateDkgAll (env : SignerEnv) (m : SignerMap) : SignerMap × Option ClientError :=
  let r0 := updateDkgSlot env m.slot0
  match r0.2 with
  | some err => ({ m with slot0 := r0.1 }, some err)
  | none =>
    let r1 := updateDkgSlot env m.slot1
    ({ slot0 := r0.1, slot1 := r1.1 }, r1.2)

/-- One attempt of the closure inside `refresh_signers_with_retry`
(runloop.rs:211-229): look up the current cycle, refresh current and next
cycles' machines, run DKG on every live machine, fail (transiently) when no
machine is live, and only then mark the run loop `Initialized`. -/
def refreshAttempt (client : StacksClient) (env : SignerEnv) (rl : RunLoop) :
    RunLoop × Option (BackoffError ClientError) :=
  match client.get_current_reward_cycle with
  | .error e => (rl, some (.transient e))
  | .ok current_reward_cycle =>
    let next_reward_cycle := (current_reward_cycle + 1) % 2 ^ 64
    let r1 := refresh_signer_config client rl current_reward_cycle
    match r1.2 with
    | some e => (r1.1, some e)
    | none =>
      let r2 := refresh_signer_config client r1.1 next_reward_cycle
      match r2.2 with
      | some e => (r2.1, some e)
      | none =>
        let r3 := updateDkgAll env r2.1.stacks_signers
        let rl' := { r2.1 with stacks_signers := r3.1 }
        match r3.2 with
        | some e => (rl', some (.transient e))
        | none =>
          if rl'.stacks_signers.isEmpty then
            (rl', some (.transient .notRegistered))
          else
            ({ rl' with state := .initialized }, none)

/-- Modelled from the spec: `retry_with_exponential_backoff` (client code, not
under `src/`; §5: "retries against the external chain use exponential backoff
and are bounded to transient-error semantics only").  `fuel` bounds the number
of retries; backoff delays are irrelevant here.  A transient error is retried,
a permanent error or exhausted attempts return the error, success stops. -/
def retryWithBackoff (f : RunLoop → RunLoop × Option (BackoffError ClientError)) :
    Nat → RunLoop → RunLoop × Option ClientError
  | 0, rl =>
    match f rl with
    | (rl', none) => (rl', none)
    | (rl', some (.permanent e)) => (rl', some e)
    | (rl', some (.transient e)) => (rl', some e)
  | fuel + 1, rl =>
    match f rl with
    | (rl', none) => (rl', none)
    | (rl', some (.permanent e)) => (rl', some e)
    | (rl', some (.transient _)) => retryWithBackoff f fuel rl'

/-- Source `RunLoop::refresh_signers_with_retry` (runloop.rs:210-231). -/
def refresh_signers_with_retry (client : StacksClient) (env : SignerEnv) (fuel : Nat)
    (rl : RunLoop) : RunLoop × Option ClientError :=
  retryWithBackoff (refreshAttempt client env) fuel rl

/-- The command-routing block of `run_one_pass` (runloop.rs:280-295): push the
inner command onto the queue of the machine at slot `reward_cycle % 2` if its
reward cycle matches the command's; otherwise warn and drop the command. -/
def route_command (m : SignerMap) : Option RunLoopCommand → SignerMap
  | none => m
  | some command =>
    let reward_cycle := command.reward_cycle
    match m.get (reward_cycle % 2) with
    | some stacks_signer =>
      if stacks_signer.reward_cycle = reward_cycle then
        m.insert (reward_cycle % 2)
          { stacks_signer with commands := stacks_signer.commands ++ [command.command] }
      else
        m
    | none => m

/-- Per-machine body of the event loop of `run_one_pass` (runloop.rs:296-305):
deliver the event (errors are logged and ignored), then run the machine's next
queued command. -/
def deliverEvent (env : SignerEnv) (event : Option Nat) (s : Signer) : Signer :=
  env.process_next_command (env.process_event s event).1

/-- The event loop over every live machine. -/
def process_all (env : SignerEnv) (event : Option Nat) (m : SignerMap) : SignerMap :=
  { slot0 := m.slot0.map (deliverEvent env event)
    slot1 := m.slot1.map (deliverEvent env event) }

/-- Source `RunLoop::cleanup_stale_signers` (runloop.rs:234-248): collect every index
whose machine's state is `TenureExceeded` and remove exactly those. -/
def cleanup_stale_signers (m : SignerMap) : SignerMap :=
  { slot0 :=
      match m.slot0 with
      | some s => if s.state = .tenureExceeded then none else some s
      | none => none
    slot1 :=
      match m.slot1 with
      | some s => if s.state = .tenureExceeded then none else some s
      | none => none }

/-- The tail of `run_one_pass` after a usable refresh: route the command,
deliver the event to every machine, run queued commands, clean up stale
machines.  The pass always returns `none` as its result value. -/
def run_pass_body (env : SignerEnv) (rl : RunLoop) (event : Option Nat)
    (cmd : Option RunLoopCommand) : RunLoop × Option (List Nat) :=
  let m := route_command rl.stacks_signers cmd
  let m := process_all env event m
  let m := cleanup_stale_signers m
  ({ rl with stacks_signers := m }, none)

/-- Source `RunLoop::run_one_pass` (runloop.rs:260-309): refresh the signers; on
refresh failure while still `Uninitialized`, drop the event and return at
once; otherwise continue the pass against the (possibly stale) machines. -/
def run_one_pass (client : StacksClient) (env : SignerEnv) (fuel : Nat) (rl : RunLoop)
    (event : Option Nat) (cmd : Option RunLoopCommand) : RunLoop × Option (List Nat) :=
  let r := refresh_signers_with_retry client env fuel rl
  match r.2 with
  | some _ =>
    if r.1.state = .uninitialized then
      (r.1, none)
    else
      run_pass_body env r.1 event cmd
  | none => run_pass_body env r.1 event cmd

/-! ## Tenure & fork-choice engine

The chainstate functions these claims exercise (`check_tenure_continuity`,
`check_nakamoto_tenure`, `get_coinbase_height`) live in chainstate code that is
not under `src/`; only their test harness
(`stackslib/src/chainstate/nakamoto/tests/node.rs`) is.  They are modelled
here from the spec (§4.4). -/

/-- Cause of a tenure change: a brand-new elected miner (`BlockFound`) or a
continuation after an empty election (`Extended`). -/
inductive TenureChangeCause where
  | blockFound
  | extended
deriving DecidableEq, Repr

/-- The four identifying fields of a tenure-change transaction (the
previous-tenure end block and block count together form the fourth), plus its
cause. -/
structure TenureChangePayload where
  tenure_consensus_hash : Nat
  prev_tenure_consensus_hash : Nat
  burn_view_consensus_hash : Nat
  previous_tenure_end : Nat
  previous_tenure_blocks : Nat
  cause : TenureChangeCause
deriving DecidableEq, Repr

/-- The slice of a Nakamoto block header these claims read: the parent pointer
and the consensus hash naming the tenure the block belongs to. -/
structure NakamotoBlockHeader where
  parent_block_id : Nat
  consensus_hash : Nat
deriving DecidableEq, Repr

/-- A Nakamoto block: header plus its (at most one) tenure-change
transaction. -/
structure NakamotoBlock where
  header : NakamotoBlockHeader
  tenure_tx : Option TenureChangePayload
deriving DecidableEq, Repr

/-- Source `NakamotoBlock::get_tenure_tx_payload`: the tenure-change transaction of
either cause, when present. -/
def NakamotoBlock.get_tenure_tx_payload (b : NakamotoBlock) : Option TenureChangePayload :=
  b.tenure_tx

/-- Source `NakamotoBlock::get_tenure_change_tx_payload`: only `BlockFound`
tenure-change transactions, i.e. it answers "is this a tenure-start block"
("only blocks with a tenure-change block-found transaction are tenure-start
blocks"). -/
def NakamotoBlock.get_tenure_change_tx_payload (b : NakamotoBlock) :
    Option TenureChangePayload :=
  match b.tenure_tx with
  | some p => if p.cause = .blockFound then some p else none
  | none => none

/-- Modelled from the spec: the chain's records against which
`check_nakamoto_tenure` validates a tenure-change transaction — the consensus
hash of the election that produced the declared tenure, the actual prior
tenure's consensus hash, end block and block count, and the burnchain tip as
of this tenure. -/
structure ChainRecords where
  election_consensus_hash : Nat
  prev_tenure_consensus_hash : Nat
  burn_view_consensus_hash : Nat
  prev_tenure_end : Nat
  prev_tenure_blocks : Nat
deriving DecidableEq, Repr

/-- The tenure record `check_nakamoto_tenure` yields on success. -/
structure NakamotoTenure where
  tenure_id_consensus_hash : Nat
  prev_tenure_id_consensus_hash : Nat
  burn_view_consensus_hash : Nat
  cause : TenureChangeCause
  num_blocks_confirmed : Nat
deriving DecidableEq, Repr

/-- Modelled from the spec: `check_nakamoto_tenure` (chainstate code not under
`src/`).  "A tenure-change transaction is valid only if all four of its
identifying fields agree with the chain's records … any mismatch invalidates
the transaction"; the block carrying the transaction must itself belong to the
declared new tenure (its header's consensus hash names that tenure).  Returns
the new tenure record, or `none` ("no tenure") on any mismatch. -/
def check_nakamoto_tenure (rec : ChainRecords) (header : NakamotoBlockHeader)
    (tx : TenureChangePayload) : Option NakamotoTenure :=
  if tx.tenure_consensus_hash = header.consensus_hash
      ∧ tx.tenure_consensus_hash = rec.election_consensus_hash
      ∧ tx.prev_tenure_consensus_hash = rec.prev_tenure_consensus_hash
      ∧ tx.burn_view_consensus_hash = rec.burn_view_consensus_hash
      ∧ tx.previous_tenure_end = rec.prev_tenure_end
      ∧ tx.previous_tenure_blocks = rec.prev_tenure_blocks then
    some
      { tenure_id_consensus_hash := tx.tenure_consensus_hash
        prev_tenure_id_consensus_hash := tx.prev_tenure_consensus_hash
        burn_view_consensus_hash := tx.burn_view_consensus_hash
        cause := tx.cause
        num_blocks_confirmed := tx.previous_tenure_blocks }
  else
    none

/-- Modelled from the spec: `check_tenure_continuity` (chainstate code not
under `src/`) — whether the block of `header` continues the tenure named by
`parent_consensus_hash`.  A Nakamoto block's header consensus hash names the
tenure it belongs to, so continuity holds exactly when the two hashes
agree. -/
def check_tenure_continuity (parent_consensus_hash : Nat)
    (header : NakamotoBlockHeader) : Bool :=
  header.consensus_hash == parent_consensus_hash

/-- A processed block as stored by the chainstate: the block and its computed
coinbase height (`get_coinbase_height`). -/
structure BlockRecord where
  block : NakamotoBlock
  coinbase_height : Nat
deriving DecidableEq, Repr

/-- Modelled from the spec: acceptance of a Nakamoto block `b` on processed
parent `parent` (§4.4):
* a tenure-change transaction must pass `check_nakamoto_tenure`;
* a `BlockFound` tenure change "always starts a new tenure … a genuinely new
  election occurred": the block belongs to the new election's tenure,
  distinct from the parent's;
* an `Extended` tenure change "continues the same ongoing tenure": the block
  stays in the parent's tenure;
* a block with no tenure change stays in the parent's tenure;
* "coinbase height increases by exactly one on `BlockFound` tenure-start
  blocks and is unchanged on every other block". -/
def process_nakamoto_block (rec : ChainRecords) (parent : BlockRecord)
    (b : NakamotoBlock) : Option BlockRecord :=
  let valid :=
    match b.tenure_tx with
    | some tx =>
      (check_nakamoto_tenure rec b.header tx).isSome &&
      (match tx.cause with
       | .blockFound =>
         b.header.consensus_hash == rec.election_consensus_hash &&
         !(b.header.consensus_hash == parent.block.header.consensus_hash)
       | .extended =>
         b.header.consensus_hash == parent.block.header.consensus_hash)
    | none => b.header.consensus_hash == parent.block.header.consensus_hash
  if valid then
    some
      { block := b
        coinbase_height := parent.coinbase_height +
          (if b.get_tenure_change_tx_payload.isSome then 1 else 0) }
  else
    none

/-! ## Claims C1–C3: tenure continuity, tenure-change validation, coinbase height -/

/-- C1: For every processed Nakamoto block carrying a tenure-change
transaction: if the transaction's cause is `BlockFound`,
`check_tenure_continuity` between the immediate parent block's consensus hash
and the block's header returns `false` (no continuity); if the cause is
`Extended`, it returns `true` (continuity with the immediate parent's
tenure). -/
theorem c1_tenure_continuity_cause (rec : ChainRecords) (parent : BlockRecord)
    (b : NakamotoBlock) (r : BlockRecord) (tx : TenureChangePayload)
    (hproc : process_nakamoto_block rec parent b = some r)
    (htx : b.get_tenure_tx_payload = some tx) :
    (tx.cause = .blockFound →
      check_tenure_continuity parent.block.header.consensus_hash b.header = false) ∧
    (tx.cause = .extended →
      check_tenure_continuity parent.block.header.consensus_hash b.header = true) := by
  have htx' : b.tenure_tx = some tx := htx
  simp only [process_nakamoto_block, htx'] at hproc
  cases htc : tx.cause with
  | blockFound =>
    refine ⟨fun _ => ?_, fun hx => by simp [htc] at hx⟩
    rw [htc] at hproc
    split at hproc
    · rename_i hvalid
      simp only [Bool.and_eq_true, Bool.not_eq_true'] at hvalid
      exact hvalid.2.2
    · exact absurd hproc (by simp)
  | extended =>
    refine ⟨fun hx => by simp [htc] at hx, fun _ => ?_⟩
    rw [htc] at hproc
    split at hproc
    · rename_i hvalid
      simp only [Bool.and_eq_true] at hvalid
      exact hvalid.2
    · exact absurd hproc (by simp)

/-- Concrete instance of C1: a `BlockFound` block on a parent in tenure `1`
reports no continuity. -/
theorem c1_tenure_continuity_cause_witness :
    check_tenure_continuity 1
      (NakamotoBlock.mk ⟨5, 2⟩ (some ⟨2, 1, 7, 40, 3, .blockFound⟩)).header = false :=
  (c1_tenure_continuity_cause ⟨2, 1, 7, 40, 3⟩ ⟨⟨⟨0, 1⟩, none⟩, 4⟩
      ⟨⟨5, 2⟩, some ⟨2, 1, 7, 40, 3, .blockFound⟩⟩
      ⟨⟨⟨5, 2⟩, some ⟨2, 1, 7, 40, 3, .blockFound⟩⟩, 5⟩
      ⟨2, 1, 7, 40, 3, .blockFound⟩ rfl rfl).1 rfl

/-- C2: a tenure-change transaction accepted by `check_nakamoto_tenure` agrees
with the chain records on every identifying field, and changing any single
field to a value that disagrees with the records makes `check_nakamoto_tenure`
return no tenure. -/
theorem c2_tenure_change_field_validation (rec : ChainRecords)
    (header : NakamotoBlockHeader) (tx : TenureChangePayload) (t : NakamotoTenure)
    (h : check_nakamoto_tenure rec header tx = some t) :
    (tx.tenure_consensus_hash = rec.election_consensus_hash ∧
     tx.prev_tenure_consensus_hash = rec.prev_tenure_consensus_hash ∧
     tx.burn_view_consensus_hash = rec.burn_view_consensus_hash ∧
     tx.previous_tenure_end = rec.prev_tenure_end ∧
     tx.previous_tenure_blocks = rec.prev_tenure_blocks) ∧
    (∀ v, v ≠ rec.election_consensus_hash →
      check_nakamoto_tenure rec header { tx with tenure_consensus_hash := v } = none) ∧
    (∀ v, v ≠ rec.prev_tenure_consensus_hash →
      check_nakamoto_tenure rec header { tx with prev_tenure_consensus_hash := v } = none) ∧
    (∀ v, v ≠ rec.burn_view_consensus_hash →
      check_nakamoto_tenure rec header { tx with burn_view_consensus_hash := v } = none) ∧
    (∀ v, v ≠ rec.prev_tenure_end →
      check_nakamoto_tenure rec header { tx with previous_tenure_end := v } = none) ∧
    (∀ v, v ≠ rec.prev_tenure_blocks →
      check_nakamoto_tenure rec header { tx with previous_tenure_blocks := v } = none) := by
  unfold check_nakamoto_tenure at h
  split at h
  · rename_i hc
    obtain ⟨h1, h2, h3, h4, h5, h6⟩ := hc
    refine ⟨⟨h2, h3, h4, h5, h6⟩, ?_, ?_, ?_, ?_, ?_⟩
    · intro v hv
      unfold check_nakamoto_tenure
      exact if_neg (fun hc' => hv hc'.2.1)
    · intro v hv
      unfold check_nakamoto_tenure
      exact if_neg (fun hc' => hv hc'.2.2.1)
    · intro v hv
      unfold check_nakamoto_tenure
      exact if_neg (fun hc' => hv hc'.2.2.2.1)
    · intro v hv
      unfold check_nakamoto_tenure
      exact if_neg (fun hc' => hv hc'.2.2.2.2.1)
    · intro v hv
      unfold check_nakamoto_tenure
      exact if_neg (fun hc' => hv hc'.2.2.2.2.2)
  · exact absurd h (by simp)

/-- Concrete instance of C2 (the spec's scenario): a tenure change whose
`prev_tenure_consensus_hash` points at a stale consensus hash is rejected. -/
theorem c2_tenure_change_field_validation_witness :
    check_nakamoto_tenure ⟨10, 20, 30, 40, 5⟩ ⟨99, 10⟩
      { TenureChangePayload.mk 10 20 30 40 5 .blockFound with
          prev_tenure_consensus_hash := 21 } = none :=
  ((c2_tenure_change_field_validation ⟨10, 20, 30, 40, 5⟩ ⟨99, 10⟩
      ⟨10, 20, 30, 40, 5, .blockFound⟩ ⟨10, 20, 30, .blockFound, 5⟩ rfl).2.2.1) 21
    (by decide)

/-- C3: the coinbase height of a processed block equals the parent's coinbase
height plus one exactly when the block starts a tenure via a `BlockFound`
tenure change, and is unchanged on every other block, including
tenure-Extended blocks. -/
theorem c3_coinbase_height (rec : ChainRecords) (parent : BlockRecord)
    (b : NakamotoBlock) (r : BlockRecord)
    (hproc : process_nakamoto_block rec parent b = some r) :
    (b.get_tenure_change_tx_payload.isSome = true →
      r.coinbase_height = parent.coinbase_height + 1) ∧
    (b.get_tenure_change_tx_payload.isSome = false →
      r.coinbase_height = parent.coinbase_height) ∧
    (∀ tx, b.get_tenure_tx_payload = some tx → tx.cause = .extended →
      r.coinbase_height = parent.coinbase_height) := by
  simp only [process_nakamoto_block] at hproc
  split at hproc
  · have hr := Option.some.inj hproc
    subst hr
    refine ⟨fun hs => ?_, fun hs => ?_, fun tx htx hcause => ?_⟩
    · simp [hs]
    · simp [hs]
    · have htx' : b.tenure_tx = some tx := htx
      have hnone : b.get_tenure_change_tx_payload = none := by
        simp [NakamotoBlock.get_tenure_change_tx_payload, htx', hcause]
      simp [hnone]
  · exact absurd hproc (by simp)

/-- Concrete instance of C3: an `Extended` block keeps its parent's coinbase
height. -/
theorem c3_coinbase_height_witness :
    (BlockRecord.mk ⟨⟨5, 1⟩, some ⟨1, 1, 7, 40, 3, .extended⟩⟩ 4).coinbase_height = 4 :=
  (c3_coinbase_height ⟨1, 1, 7, 40, 3⟩ ⟨⟨⟨0, 1⟩, none⟩, 4⟩
      ⟨⟨5, 1⟩, some ⟨1, 1, 7, 40, 3, .extended⟩⟩
      ⟨⟨⟨5, 1⟩, some ⟨1, 1, 7, 40, 3, .extended⟩⟩, 4⟩ rfl).2.2
    ⟨1, 1, 7, 40, 3, .extended⟩ rfl rfl

/-! ## Claim C5: command routing -/

/-- C5: an inbound operator command's inner command is enqueued (at the tail
of the FIFO queue) on the machine at slot `reward_cycle % 2` exactly when that
machine exists and its reward cycle equals the command's declared cycle;
otherwise the command is dropped and the machine map — in particular every
machine's queue — is left unchanged. -/
theorem c5_command_routing (m : SignerMap) (command : RunLoopCommand) :
    (∀ s, m.get (command.reward_cycle % 2) = some s →
      (s.reward_cycle = command.reward_cycle →
        route_command m (some command) =
          m.insert (command.reward_cycle % 2)
            { s with commands := s.commands ++ [command.command] }) ∧
      (s.reward_cycle ≠ command.reward_cycle →
        route_command m (some command) = m)) ∧
    (m.get (command.reward_cycle % 2) = none →
      route_command m (some command) = m) := by
  refine ⟨fun s hs => ⟨fun heq => ?_, fun hne => ?_⟩, fun hn => ?_⟩
  · simp only [route_command, hs, if_pos heq]
  · simp only [route_command, hs, if_neg hne]
  · simp only [route_command, hn]

/-- Concrete instance of C5 (the spec's scenario): with machines for cycles 6
and 7 live, a command declared for the deleted cycle 5 is dropped — the map,
and so every queue, is unchanged. -/
theorem c5_command_routing_witness :
    route_command
      ⟨some ⟨6, 0, .idle, []⟩, some ⟨7, 1, .idle, []⟩⟩ (some ⟨42, 5⟩) =
      ⟨some ⟨6, 0, .idle, []⟩, some ⟨7, 1, .idle, []⟩⟩ :=
  ((c5_command_routing ⟨some ⟨6, 0, .idle, []⟩, some ⟨7, 1, .idle, []⟩⟩ ⟨42, 5⟩).1
    ⟨7, 1, .idle, []⟩ rfl).2 (by decide)

/-! ## Claim C9: resolver determinism -/

/-- C9: resolving the committee for a reward cycle twice, when every query the
resolver makes returns the same answer in both runs, yields identical results
(identical `signer_id`, `signer_slot_id`, and key-id assignment). -/
theorem c9_resolver_deterministic (cfg : Config) (c₁ c₂ : StacksClient) (rc : Nat)
    (h₁ : c₁.reward_set_calculated = c₂.reward_set_calculated)
    (h₂ : c₁.signer_address = c₂.signer_address)
    (h₃ : c₁.get_stackerdb_signer_slots = c₂.get_stackerdb_signer_slots)
    (h₄ : c₁.get_reward_set_signers = c₂.get_reward_set_signers)
    (h₅ : c₁.get_current_reward_cycle = c₂.get_current_reward_cycle)
    (h₆ : c₁.parse_ecdsa_pubkey = c₂.parse_ecdsa_pubkey)
    (h₇ : c₁.parse_stacks_pubkey = c₂.parse_stacks_pubkey)
    (h₈ : c₁.p2pkh_address = c₂.p2pkh_address) :
    get_stacks_node_info cfg c₁ rc = get_stacks_node_info cfg c₂ rc := by
  cases c₁
  cases c₂
  simp only at h₁ h₂ h₃ h₄ h₅ h₆ h₇ h₈
  subst h₁ h₂ h₃ h₄ h₅ h₆ h₇ h₈
  rfl

/-! ## Claim C10: refresh replaces mismatched machines -/

/-- A run loop whose even slot holds a non-`TenureExceeded` machine for cycle
4 with one queued command. -/
def c10rl : RunLoop :=
  { config := { is_mainnet := true, event_timeout := 5 }
    stacks_signers := { slot0 := some ⟨4, 0, .idle, [9]⟩, slot1 := none }
    state := .initialized }

/-- A client for which the local signer is not registered (its address is in
no stacker-db slot). -/
def c10clientUnregistered : StacksClient :=
  { reward_set_calculated := fun _ => .ok true
    signer_address := 100
    get_stackerdb_signer_slots := fun _ => .ok []
    get_reward_set_signers := fun _ => .ok (some [])
    get_current_reward_cycle := .ok 6
    parse_ecdsa_pubkey := fun _ => none
    parse_stacks_pubkey := fun _ => none
    p2pkh_address := fun _ _ => 0 }

/-- Counterexample to C10 as stated: refreshing cycle 6 while its parity slot
holds a (non-stale) machine for cycle 4 does *not* unconditionally replace the
machine — when the resolver reports "not registered" (`Ok none`), the old
cycle-4 machine, protocol state and queued commands included, is retained. -/
theorem c10_counterexample :
    (refresh_signer_config c10clientUnregistered c10rl 6).1.stacks_signers.get (6 % 2) =
      some ⟨4, 0, .idle, [9]⟩ ∧
    (refresh_signer_config c10clientUnregistered c10rl 6).2 = none := by
  constructor <;> rfl

/-- C10 (amended): when the parity slot already holds a machine for a
different reward cycle *and the resolver returns a configuration for the new
cycle*, the machine is replaced by a freshly constructed one (empty queue,
live state) regardless of the old machine's lifecycle state; when the
resolver reports not-registered, the old machine is retained; when the slot's
machine already has the same reward cycle, the map is left untouched. -/
theorem c10_refresh_replacement (client : StacksClient) (rl : RunLoop)
    (reward_cycle : Nat) (s : Signer)
    (hs : rl.stacks_signers.get (reward_cycle % 2) = some s) :
    (s.reward_cycle ≠ reward_cycle →
      (∀ info, get_stacks_node_info rl.config client reward_cycle = .ok (some info) →
        refresh_signer_config client rl reward_cycle =
          ({ rl with
              stacks_signers :=
                rl.stacks_signers.insert (reward_cycle % 2) (Signer.new info) }, none)) ∧
      (get_stacks_node_info rl.config client reward_cycle = .ok none →
        refresh_signer_config client rl reward_cycle = (rl, none))) ∧
    (s.reward_cycle = reward_cycle →
      refresh_signer_config client rl reward_cycle = (rl, none)) := by
  refine ⟨fun hne => ⟨fun info hinfo => ?_, fun hnone => ?_⟩, fun heq => ?_⟩
  · simp [refresh_signer_config, hs, hne, hinfo]
  · simp [refresh_signer_config, hs, hne, hnone]
  · simp [refresh_signer_config, hs, heq]

/-- Instance of C9: running the resolver twice against the same client view
gives the same answer. -/
theorem c9_resolver_deterministic_witness :
    get_stacks_node_info ⟨true, 5⟩ c10clientUnregistered 6 =
      get_stacks_node_info ⟨true, 5⟩ c10clientUnregistered 6 :=
  c9_resolver_deterministic ⟨true, 5⟩ c10clientUnregistered c10clientUnregistered 6
    rfl rfl rfl rfl rfl rfl rfl rfl

/-- A client for which the local signer (address 100) resolves: it occupies
stacker-db slot 0 and reward-set entry 0. -/
def c10clientRegistered : StacksClient :=
  { reward_set_calculated := fun _ => .ok true
    signer_address := 100
    get_stackerdb_signer_slots := fun _ => .ok [(100, 1)]
    get_reward_set_signers := fun _ => .ok (some [⟨[1], 1⟩])
    get_current_reward_cycle := .ok 6
    parse_ecdsa_pubkey := fun _ => some 7
    parse_stacks_pubkey := fun _ => some 8
    p2pkh_address := fun _ _ => 100 }

/-- Instance of amended C10: the stale cycle-4 machine (with its queued
command) is replaced by a fresh, empty-queued machine for cycle 6 once the
resolver returns a configuration. -/
theorem c10_refresh_replacement_witness :
    ((refresh_signer_config c10clientRegistered c10rl 6).1.stacks_signers.get (6 % 2)).map
        (fun s => (s.reward_cycle, s.state, s.commands)) =
      some (6, SignerLifecycle.idle, []) := by
  rw [((c10_refresh_replacement c10clientRegistered c10rl 6 ⟨4, 0, .idle, [9]⟩ rfl).1
      (by decide)).1 _ rfl]
  rfl

/-! ## Claim C7: stale machines never survive a pass -/

/-- A slot either is empty or holds a machine that is not `TenureExceeded`. -/
def SlotLive : Option Signer → Prop
  | some s => s.state ≠ .tenureExceeded
  | none => True

/-- No machine in the map is `TenureExceeded`. -/
def NoStale (m : SignerMap) : Prop := SlotLive m.slot0 ∧ SlotLive m.slot1

theorem noStale_iff_get (m : SignerMap) :
    NoStale m ↔ ∀ k s, m.get k = some s → s.state ≠ .tenureExceeded := by
  unfold NoStale SignerMap.get
  constructor
  · intro h k s hks
    by_cases hk : k % 2 = 0
    · rw [if_pos hk] at hks
      have h0 := h.1
      rw [hks] at h0
      exact h0
    · rw [if_neg hk] at hks
      have h1 := h.2
      rw [hks] at h1
      exact h1
  · intro h
    constructor
    · cases hm : m.slot0 with
      | none => trivial
      | some s => exact h 0 s (by simp [hm])
    · cases hm : m.slot1 with
      | none => trivial
      | some s => exact h 1 s (by simp [hm])

/-- Reading `cleanup_stale_signers` pointwise: it removes exactly the machines whose
state is `TenureExceeded` and keeps every other machine unchanged. -/
theorem cleanup_stale_signers_get (m : SignerMap) (k : Nat) :
    (cleanup_stale_signers m).get k =
      match m.get k with
      | some s => if s.state = .tenureExceeded then none else some s
      | none => none := by
  unfold cleanup_stale_signers SignerMap.get
  by_cases h : k % 2 = 0
  · simp only [if_pos h]
  · simp only [if_neg h]

theorem slotLive_clean (o : Option Signer) :
    SlotLive (match o with
      | some s => if s.state = .tenureExceeded then none else some s
      | none => none) := by
  cases o with
  | none => trivial
  | some s => by_cases h : s.state = .tenureExceeded <;> simp [SlotLive, h]

theorem noStale_cleanup (m : SignerMap) : NoStale (cleanup_stale_signers m) :=
  ⟨slotLive_clean m.slot0, slotLive_clean m.slot1⟩

theorem noStale_run_pass_body (env : SignerEnv) (rl : RunLoop) (event : Option Nat)
    (cmd : Option RunLoopCommand) :
    NoStale (run_pass_body env rl event cmd).1.stacks_signers :=
  noStale_cleanup _

theorem noStale_insert (m : SignerMap) (k : Nat) (s : Signer)
    (hm : NoStale m) (hs : s.state ≠ .tenureExceeded) : NoStale (m.insert k s) := by
  unfold SignerMap.insert
  by_cases h : k % 2 = 0
  · rw [if_pos h]
    exact ⟨hs, hm.2⟩
  · rw [if_neg h]
    exact ⟨hm.1, hs⟩

theorem signer_new_live (info : StacksNodeInfo) :
    (Signer.new info).state ≠ .tenureExceeded := by
  simp [Signer.new]

theorem noStale_refresh_config (client : StacksClient) (rl : RunLoop) (rc : Nat)
    (h : NoStale rl.stacks_signers) :
    NoStale (refresh_signer_config client rl rc).1.stacks_signers := by
  simp only [refresh_signer_config]
  split
  · split
    · exact h
    · exact noStale_insert _ _ _ h (signer_new_live _)
    · exact h
  · exact h

theorem slotLive_updateDkgSlot (env : SignerEnv)
    (hdkg : ∀ s, (env.update_dkg s).1.state = .tenureExceeded →
      s.state = .tenureExceeded)
    (o : Option Signer) (h : SlotLive o) : SlotLive (updateDkgSlot env o).1 := by
  cases o with
  | none => trivial
  | some s =>
    show (env.update_dkg s).1.state ≠ .tenureExceeded
    exact fun hc => h (hdkg s hc)

theorem noStale_updateDkgAll (env : SignerEnv)
    (hdkg : ∀ s, (env.update_dkg s).1.state = .tenureExceeded →
      s.state = .tenureExceeded)
    (m : SignerMap) (h : NoStale m) : NoStale (updateDkgAll env m).1 := by
  simp only [updateDkgAll]
  split
  · exact ⟨slotLive_updateDkgSlot env hdkg _ h.1, h.2⟩
  · exact ⟨slotLive_updateDkgSlot env hdkg _ h.1, slotLive_updateDkgSlot env hdkg _ h.2⟩

theorem noStale_refreshAttempt (client : StacksClient) (env : SignerEnv) (rl : RunLoop)
    (hdkg : ∀ s, (env.update_dkg s).1.state = .tenureExceeded →
      s.state = .tenureExceeded)
    (h : NoStale rl.stacks_signers) :
    NoStale (refreshAttempt client env rl).1.stacks_signers := by
  simp only [refreshAttempt]
  split
  · exact h
  · split
    · exact noStale_refresh_config _ _ _ h
    · split
      · exact noStale_refresh_config _ _ _ (noStale_refresh_config _ _ _ h)
      · split
        · exact noStale_updateDkgAll env hdkg _
            (noStale_refresh_config _ _ _ (noStale_refresh_config _ _ _ h))
        · split
          · exact noStale_updateDkgAll env hdkg _
              (noStale_refresh_config _ _ _ (noStale_refresh_config _ _ _ h))
          · exact noStale_updateDkgAll env hdkg _
              (noStale_refresh_config _ _ _ (noStale_refresh_config _ _ _ h))

theorem noStale_retryWithBackoff
    (f : RunLoop → RunLoop × Option (BackoffError ClientError))
    (hf : ∀ rl, NoStale rl.stacks_signers → NoStale (f rl).1.stacks_signers) :
    ∀ (fuel : Nat) (rl : RunLoop), NoStale rl.stacks_signers →
      NoStale (retryWithBackoff f fuel rl).1.stacks_signers := by
  intro fuel
  induction fuel with
  | zero =>
    intro rl h
    unfold retryWithBackoff
    split
    · rename_i rl' heq
      have := hf rl h
      rw [heq] at this
      exact this
    · rename_i rl' e heq
      have := hf rl h
      rw [heq] at this
      exact this
    · rename_i rl' e heq
      have := hf rl h
      rw [heq] at this
      exact this
  | succ fuel ih =>
    intro rl h
    unfold retryWithBackoff
    split
    · rename_i rl' heq
      have := hf rl h
      rw [heq] at this
      exact this
    · rename_i rl' e heq
      have := hf rl h
      rw [heq] at this
      exact this
    · rename_i rl' e heq
      have h' := hf rl h
      rw [heq] at h'
      exact ih rl' h'

/-- C7: at the end of every run-loop pass no machine whose lifecycle state is
`TenureExceeded` remains in the machine map (given that the pass started with
none — the condition every previous pass's cleanup establishes — and that
`update_dkg` never itself marks a machine `TenureExceeded`); and the cleanup
step deletes exactly the machines in that state, leaving every other machine
untouched. -/
theorem c7_no_stale_machines (client : StacksClient) (env : SignerEnv) (fuel : Nat)
    (rl : RunLoop) (event : Option Nat) (cmd : Option RunLoopCommand)
    (hdkg : ∀ s, (env.update_dkg s).1.state = .tenureExceeded →
      s.state = .tenureExceeded)
    (hlive : ∀ k s, rl.stacks_signers.get k = some s → s.state ≠ .tenureExceeded) :
    (∀ k s, (run_one_pass client env fuel rl event cmd).1.stacks_signers.get k = some s →
      s.state ≠ .tenureExceeded) ∧
    (∀ (m : SignerMap) (k : Nat),
      (cleanup_stale_signers m).get k =
        match m.get k with
        | some s => if s.state = .tenureExceeded then none else some s
        | none => none) := by
  refine ⟨?_, cleanup_stale_signers_get⟩
  rw [← noStale_iff_get]
  have h0 : NoStale rl.stacks_signers := (noStale_iff_get _).mpr hlive
  simp only [run_one_pass]
  split
  · split
    · exact noStale_retryWithBackoff _
        (fun rl' h' => noStale_refreshAttempt client env rl' hdkg h') fuel rl h0
    · exact noStale_run_pass_body _ _ _ _
  · exact noStale_run_pass_body _ _ _ _

/-- Instance of C7 (the spec's scenario): cleanup deletes the
`TenureExceeded` cycle-5 machine and keeps the live cycle-6 machine. -/
theorem c7_no_stale_machines_witness :
    (cleanup_stale_signers
        ⟨some ⟨6, 1, .idle, []⟩, some ⟨5, 0, .tenureExceeded, []⟩⟩).get 1 = none ∧
    (cleanup_stale_signers
        ⟨some ⟨6, 1, .idle, []⟩, some ⟨5, 0, .tenureExceeded, []⟩⟩).get 0 =
      some ⟨6, 1, .idle, []⟩ :=
  ⟨(c7_no_stale_machines c10clientUnregistered
      ⟨fun s => (s, none), fun s _ => (s, none), fun s => s⟩ 0
      ⟨⟨true, 5⟩, ⟨none, none⟩, .uninitialized⟩ none none
      (fun _ h => h) (fun k s h => by simp [SignerMap.get] at h)).2
      ⟨some ⟨6, 1, .idle, []⟩, some ⟨5, 0, .tenureExceeded, []⟩⟩ 1,
   (c7_no_stale_machines c10clientUnregistered
      ⟨fun s => (s, none), fun s _ => (s, none), fun s => s⟩ 0
      ⟨⟨true, 5⟩, ⟨none, none⟩, .uninitialized⟩ none none
      (fun _ h => h) (fun k s h => by simp [SignerMap.get] at h)).2
      ⟨some ⟨6, 1, .idle, []⟩, some ⟨5, 0, .tenureExceeded, []⟩⟩ 0⟩

/-! ## Claim C8: resolver failures are transient -/

theorem mapError_transient_isTransient {α : Type} (x : Except ClientError α)
    (e : BackoffError ClientError)
    (h : x.mapError BackoffError.transient = .error e) : e.isTransient = true := by
  cases x with
  | ok a => simp [Except.mapError] at h
  | error err =>
    simp only [Except.mapError] at h
    injection h with h2
    rw [← h2]
    rfl

theorem resolveEntries_error_isTransient (client : StacksClient) (is_mainnet : Bool)
    (reward_cycle current_addr : Nat) :
    ∀ (entries : List RewardSetSignerEntry) (i : Nat) (st : ResolveState)
      (e : BackoffError ClientError),
      resolveEntries client is_mainnet reward_cycle current_addr entries i st = .error e →
      e.isTransient = true := by
  intro entries
  induction entries with
  | nil =>
    intro i st e h
    simp [resolveEntries] at h
  | cons entry rest ih =>
    intro i st e h
    simp only [resolveEntries] at h
    split at h
    · injection h with h2
      rw [← h2]
      rfl
    · split at h
      · injection h with h2
        rw [← h2]
        rfl
      · exact ih _ _ _ h

/-- C8 (amended): every error the Reward-Cycle Signer Resolver returns —
reward set not yet calculated, client query failures, a reward-set entry's
signing key failing to parse — is a retryable transient error, never a
permanent (fatal) one.  (A local slot not found is not an error at all: see
the counterexample `c8_slot_not_found_is_ok_none`.) -/
theorem c8_resolver_errors_transient (cfg : Config) (client : StacksClient) (rc : Nat)
    (e : BackoffError ClientError)
    (h : get_stacks_node_info cfg client rc = .error e) : e.isTransient = true := by
  simp only [get_stacks_node_info] at h
  split at h
  · rename_i e' heq
    injection h with h2
    rw [← h2]
    exact mapError_transient_isTransient _ _ heq
  · split at h
    · injection h with h2
      rw [← h2]
      rfl
    · split at h
      · rename_i e' heq2
        injection h with h2
        rw [← h2]
        exact mapError_transient_isTransient _ _ heq2
      · split at h
        · simp at h
        · split at h
          · rename_i e' heq3
            injection h with h2
            rw [← h2]
            exact mapError_transient_isTransient _ _ heq3
          · simp at h
          · split at h
            · rename_i e' heq4
              injection h with h2
              rw [← h2]
              exact resolveEntries_error_isTransient _ _ _ _ _ _ _ _ heq4
            · split at h
              · simp at h
              · simp at h

/-- A client in which the reward set is calculated but the local signer
(address 7) holds no stacker-db slot. -/
def c8clientSlotless : StacksClient :=
  { reward_set_calculated := fun _ => .ok true
    signer_address := 7
    get_stackerdb_signer_slots := fun _ => .ok [(1, 1), (2, 1)]
    get_reward_set_signers := fun _ => .ok (some [])
    get_current_reward_cycle := .ok 0
    parse_ecdsa_pubkey := fun _ => none
    parse_stacks_pubkey := fun _ => none
    p2pkh_address := fun _ _ => 0 }

/-- Counterexample to C8 as stated: when the local signer's slot is not found
among the stacker-db slot holders, the resolver does not return a retryable
transient error — it returns the successful "not registered" result
`Ok none`. -/
theorem c8_slot_not_found_is_ok_none :
    get_stacks_node_info ⟨true, 5⟩ c8clientSlotless 7 = .ok none := rfl

/-- A client whose reward set is not yet calculated. -/
def c8clientPending : StacksClient :=
  { c8clientSlotless with reward_set_calculated := fun _ => .ok false }

/-- Instance of amended C8: the "reward set not yet calculated" failure is a
transient error. -/
theorem c8_resolver_errors_transient_witness :
    (BackoffError.transient (ClientError.rewardSetNotYetCalculated 3)).isTransient = true :=
  c8_resolver_errors_transient ⟨true, 5⟩ c8clientPending 3 _ rfl

/-! ## Claim C6: refresh failure vs. initialization state -/

theorem refresh_signer_config_state (client : StacksClient) (rl : RunLoop) (rc : Nat) :
    (refresh_signer_config client rl rc).1.state = rl.state := by
  simp only [refresh_signer_config]
  split
  · split <;> rfl
  · rfl

/-- A single refresh attempt either leaves the run-loop state untouched, or
succeeds (no error) having set it to `Initialized`. -/
theorem refreshAttempt_state_cases (client : StacksClient) (env : SignerEnv)
    (rl : RunLoop) :
    (refreshAttempt client env rl).1.state = rl.state ∨
    ((refreshAttempt client env rl).1.state = .initialized ∧
      (refreshAttempt client env rl).2 = none) := by
  simp only [refreshAttempt]
  split
  · exact Or.inl rfl
  · split
    · exact Or.inl (refresh_signer_config_state _ _ _)
    · split
      · exact Or.inl (by
          rw [show (refresh_signer_config _ (refresh_signer_config _ rl _).1 _).1.state =
                (refresh_signer_config _ rl _).1.state from refresh_signer_config_state _ _ _,
              refresh_signer_config_state])
      · split
        · exact Or.inl (by
            show (refresh_signer_config _ (refresh_signer_config _ rl _).1 _).1.state = rl.state
            rw [refresh_signer_config_state, refresh_signer_config_state])
        · split
          · exact Or.inl (by
              show (refresh_signer_config _ (refresh_signer_config _ rl _).1 _).1.state = rl.state
              rw [refresh_signer_config_state, refresh_signer_config_state])
          · exact Or.inr ⟨rfl, rfl⟩

theorem retryWithBackoff_fail_state
    (f : RunLoop → RunLoop × Option (BackoffError ClientError))
    (hf : ∀ rl, (f rl).1.state = rl.state ∨
      ((f rl).1.state = .initialized ∧ (f rl).2 = none)) :
    ∀ (fuel : Nat) (rl : RunLoop) (e : ClientError),
      (retryWithBackoff f fuel rl).2 = some e →
      (retryWithBackoff f fuel rl).1.state = rl.state := by
  intro fuel
  induction fuel with
  | zero =>
    intro rl e h
    unfold retryWithBackoff at h ⊢
    split at h
    · simp at h
    · rename_i rl' e' heq
      rcases hf rl with hst | ⟨_, hnone⟩
      · rw [heq] at hst
        exact hst
      · rw [heq] at hnone
        simp at hnone
    · rename_i rl' e' heq
      rcases hf rl with hst | ⟨_, hnone⟩
      · rw [heq] at hst
        exact hst
      · rw [heq] at hnone
        simp at hnone
  | succ fuel ih =>
    intro rl e h
    unfold retryWithBackoff at h ⊢
    split at h
    · simp at h
    · rename_i rl' e' heq
      rcases hf rl with hst | ⟨_, hnone⟩
      · rw [heq] at hst
        exact hst
      · rw [heq] at hnone
        simp at hnone
    · rename_i rl' e' heq
      rcases hf rl with hst | ⟨_, hnone⟩
      · rw [heq] at hst
        rw [ih rl' e h]
        exact hst
      · rw [heq] at hnone
        simp at hnone

theorem process_all_get (env : SignerEnv) (event : Option Nat) (m : SignerMap) (k : Nat) :
    (process_all env event m).get k = (m.get k).map (deliverEvent env event) := by
  unfold process_all SignerMap.get
  by_cases h : k % 2 = 0 <;> simp [h]

theorem run_pass_body_get (env : SignerEnv) (rl : RunLoop) (event : Option Nat)
    (cmd : Option RunLoopCommand) (k : Nat) :
    (run_pass_body env rl event cmd).1.stacks_signers.get k =
      match (route_command rl.stacks_signers cmd).get k with
      | some s => if (deliverEvent env event s).state = .tenureExceeded then none
                  else some (deliverEvent env event s)
      | none => none := by
  show (cleanup_stale_signers
      (process_all env event (route_command rl.stacks_signers cmd))).get k = _
  rw [cleanup_stale_signers_get, process_all_get]
  cases (route_command rl.stacks_signers cmd).get k <;> rfl

/-- C6: when the bounded-retry refresh fails, `run_one_pass` drops the event
and returns at once if the run loop is still `Uninitialized` (and it stays
`Uninitialized`); if it was already `Initialized`, the pass continues against
the last refreshed machine map — the event is delivered (and the next queued
command run) on every live machine. -/
theorem c6_refresh_failure_handling (client : StacksClient) (env : SignerEnv)
    (fuel : Nat) (rl : RunLoop) (event : Option Nat) (cmd : Option RunLoopCommand)
    (e : ClientError)
    (hfail : (refresh_signers_with_retry client env fuel rl).2 = some e) :
    (rl.state = .uninitialized →
      run_one_pass client env fuel rl event cmd =
        ((refresh_signers_with_retry client env fuel rl).1, none) ∧
      (refresh_signers_with_retry client env fuel rl).1.state = .uninitialized) ∧
    (rl.state = .initialized →
      run_one_pass client env fuel rl event cmd =
        run_pass_body env (refresh_signers_with_retry client env fuel rl).1 event cmd ∧
      (∀ k s,
        (route_command (refresh_signers_with_retry client env fuel rl).1.stacks_signers
            cmd).get k = some s →
        (run_one_pass client env fuel rl event cmd).1.stacks_signers.get k =
          if (deliverEvent env event s).state = .tenureExceeded then none
          else some (deliverEvent env event s))) := by
  have hstate : (refresh_signers_with_retry client env fuel rl).1.state = rl.state :=
    retryWithBackoff_fail_state _ (refreshAttempt_state_cases client env) fuel rl e hfail
  constructor
  · intro huninit
    have hstate' : (refresh_signers_with_retry client env fuel rl).1.state =
        .uninitialized := by rw [hstate, huninit]
    constructor
    · simp only [run_one_pass, refresh_signers_with_retry] at *
      rw [hfail]
      simp only [hstate']
      rfl
    · exact hstate'
  · intro hinit
    have hstate' : (refresh_signers_with_retry client env fuel rl).1.state =
        .initialized := by rw [hstate, hinit]
    have hrun : run_one_pass client env fuel rl event cmd =
        run_pass_body env (refresh_signers_with_retry client env fuel rl).1 event cmd := by
      simp only [run_one_pass, refresh_signers_with_retry] at *
      rw [hfail]
      simp [hstate']
    refine ⟨hrun, fun k s hks => ?_⟩
    rw [hrun, run_pass_body_get, hks]

/-- Instance of C6: with an unreachable node (current-reward-cycle query
fails) and an `Uninitialized` run loop, the pass returns immediately with the
event undelivered and the state still `Uninitialized`. -/
theorem c6_refresh_failure_handling_witness :
    run_one_pass
      { c8clientSlotless with get_current_reward_cycle := .error (.queryFailure 1) }
      ⟨fun s => (s, none), fun s _ => (s, none), fun s => s⟩ 0
      ⟨⟨true, 5⟩, ⟨none, none⟩, .uninitialized⟩ (some 3) none =
      (⟨⟨true, 5⟩, ⟨none, none⟩, .uninitialized⟩, none) :=
  ((c6_refresh_failure_handling
      { c8clientSlotless with get_current_reward_cycle := .error (.queryFailure 1) }
      ⟨fun s => (s, none), fun s _ => (s, none), fun s => s⟩ 0
      ⟨⟨true, 5⟩, ⟨none, none⟩, .uninitialized⟩ (some 3) none
      (.queryFailure 1) rfl).1 rfl).1

/-! ## Claim C4: contiguous key-id assignment -/

/-- Total slot weight of a list of reward-set entries. -/
def sumSlots (entries : List RewardSetSignerEntry) : Nat :=
  (entries.map (fun e => e.slots)).sum

theorem sumSlots_cons (e : RewardSetSignerEntry) (r : List RewardSetSignerEntry) :
    sumSlots (e :: r) = e.slots + sumSlots r := by
  simp [sumSlots]

theorem mem_keyRange (start len k : Nat) :
    k ∈ keyRange start len ↔ start ≤ k ∧ k < start + len := by
  simp only [keyRange, List.mem_map, List.mem_range]
  constructor
  · rintro ⟨j, hj, rfl⟩
    omega
  · intro h
    exact ⟨k - start, by omega, by omega⟩

theorem insertKeyIds_weight_end (sid pk : Nat) :
    ∀ (kids : List Nat) (st : ResolveState),
      (insertKeyIds sid pk kids st).weight_end = st.weight_end := by
  intro kids
  induction kids with
  | nil => intro st; rfl
  | cons kid kids ih => intro st; exact ih _

theorem insertKeyIds_signer_key_ids (sid pk : Nat) :
    ∀ (kids : List Nat) (st : ResolveState) (s : Nat),
      (insertKeyIds sid pk kids st).signer_key_ids s =
        if s = sid then kids.reverse ++ st.signer_key_ids sid
        else st.signer_key_ids s := by
  intro kids
  induction kids with
  | nil =>
    intro st s
    by_cases h : s = sid <;> simp [insertKeyIds, h]
  | cons kid kids ih =>
    intro st s
    have step : insertKeyIds sid pk (kid :: kids) st =
        insertKeyIds sid pk kids
          { st with
            pk_key_ids := fun k => if k = kid then some pk else st.pk_key_ids k
            signer_key_ids := fun s' => if s' = sid then kid :: st.signer_key_ids sid
                                        else st.signer_key_ids s' } := rfl
    rw [step, ih]
    by_cases h : s = sid
    · simp [h]
    · simp [h]

/-- Characterization of the reward-set entry loop: entry `j` (signer id
`i + j`) is assigned exactly the contiguous key-id block starting at
`st.weight_end` plus the total weight of the earlier entries, sized by its
slot weight; every other signer id is untouched. -/
theorem resolveEntries_ok_spec (client : StacksClient) (is_mainnet : Bool)
    (reward_cycle current_addr : Nat) :
    ∀ (entries : List RewardSetSignerEntry) (i : Nat) (st st' : ResolveState),
      resolveEntries client is_mainnet reward_cycle current_addr entries i st = .ok st' →
      (∀ s, s < i → st'.signer_key_ids s = st.signer_key_ids s) ∧
      (∀ s, i + entries.length ≤ s → st'.signer_key_ids s = st.signer_key_ids s) ∧
      (∀ j, j < entries.length →
        st'.signer_key_ids (i + j) =
          (keyRange (st.weight_end + sumSlots (entries.take j))
              (entries.getD j ⟨[], 0⟩).slots).reverse ++ st.signer_key_ids (i + j)) := by
  intro entries
  induction entries with
  | nil =>
    intro i st st' h
    simp only [resolveEntries] at h
    injection h with h
    subst h
    exact ⟨fun s _ => rfl, fun s _ => rfl, fun j hj => absurd hj (by simp)⟩
  | cons entry rest ih =>
    intro i st st' h
    simp only [resolveEntries] at h
    split at h
    · simp at h
    · split at h
      · simp at h
      · obtain ⟨ihlow, ihhigh, ihmid⟩ := ih (i + 1) _ st' h
        simp only [insertKeyIds_weight_end, insertKeyIds_signer_key_ids] at ihlow ihhigh ihmid
        refine ⟨fun s hs => ?_, fun s hs => ?_, fun j hj => ?_⟩
        · rw [ihlow s (by omega), if_neg (by omega)]
        · simp only [List.length_cons] at hs
          rw [ihhigh s (by omega), if_neg (by omega)]
        · cases j with
          | zero =>
            simp only [Nat.add_zero]
            rw [ihlow i (by omega)]
            simp [sumSlots]
          | succ j =>
            simp only [List.length_cons] at hj
            have harith : i + (j + 1) = (i + 1) + j := by omega
            rw [harith, ihmid j (by omega), if_neg (by omega)]
            simp [List.take_succ_cons, sumSlots_cons, List.getD_cons_succ, Nat.add_assoc]

/-- A successful resolution's key-id table is the entry loop's output. -/
theorem get_stacks_node_info_key_ids (cfg : Config) (client : StacksClient) (rc : Nat)
    (info : StacksNodeInfo) (entries : List RewardSetSignerEntry)
    (hinfo : get_stacks_node_info cfg client rc = .ok (some info))
    (hentries : client.get_reward_set_signers rc = .ok (some entries)) :
    ∃ st', resolveEntries client cfg.is_mainnet rc client.signer_address entries 0
        initResolveState = .ok st' ∧ info.signer_key_ids = st'.signer_key_ids := by
  simp only [get_stacks_node_info] at hinfo
  split at hinfo
  · simp at hinfo
  · split at hinfo
    · simp at hinfo
    · split at hinfo
      · simp at hinfo
      · split at hinfo
        · simp at hinfo
        · split at hinfo
          · simp at hinfo
          · simp at hinfo
          · rename_i rss heq3
            rw [hentries] at heq3
            simp only [Except.mapError] at heq3
            injection heq3 with heq3
            injection heq3 with heq3
            subst heq3
            split at hinfo
            · simp at hinfo
            · rename_i st' heq4
              split at hinfo
              · simp at hinfo
              · rename_i sid heq5
                injection hinfo with hinfo
                injection hinfo with hinfo
                subst hinfo
                exact ⟨st', heq4, rfl⟩

/-- C4: when the resolver succeeds, each reward-set entry `j` owns exactly the
contiguous block of key ids that starts right after the blocks of the earlier
entries (the very first block starting at key id 1, no gaps) and is sized by
its slot weight; signer ids beyond the reward set own no key ids. -/
theorem c4_key_id_assignment (cfg : Config) (client : StacksClient) (rc : Nat)
    (info : StacksNodeInfo) (entries : List RewardSetSignerEntry)
    (hinfo : get_stacks_node_info cfg client rc = .ok (some info))
    (hentries : client.get_reward_set_signers rc = .ok (some entries)) :
    (∀ j, j < entries.length → ∀ k,
      (k ∈ info.signer_key_ids j ↔
        1 + sumSlots (entries.take j) ≤ k ∧
        k < 1 + sumSlots (entries.take j) + (entries.getD j ⟨[], 0⟩).slots)) ∧
    (∀ s, entries.length ≤ s → info.signer_key_ids s = []) := by
  obtain ⟨st', hres, hids⟩ :=
    get_stacks_node_info_key_ids cfg client rc info entries hinfo hentries
  obtain ⟨hlow, hhigh, hmid⟩ := resolveEntries_ok_spec client cfg.is_mainnet rc
    client.signer_address entries 0 initResolveState st' hres
  constructor
  · intro j hj k
    rw [hids]
    have hj' := hmid j hj
    rw [Nat.zero_add] at hj'
    rw [hj']
    simp [initResolveState, mem_keyRange]
  · intro s hs
    rw [hids, hhigh s (by omega)]
    rfl

/-- Ten equal-weight (one-slot) signers. -/
def c4entries : List RewardSetSignerEntry :=
  (List.range 10).map (fun j => ⟨[j], 1⟩)

/-- A client view with a ten-signer, equal-weight committee whose entry 0 is
the local signer. -/
def c4client : StacksClient :=
  { reward_set_calculated := fun _ => .ok true
    signer_address := 0
    get_stackerdb_signer_slots := fun _ => .ok [(0, 1)]
    get_reward_set_signers := fun _ => .ok (some c4entries)
    get_current_reward_cycle := .ok 8
    parse_ecdsa_pubkey := fun key => some (key.headD 0)
    parse_stacks_pubkey := fun key => some (key.headD 0)
    p2pkh_address := fun _ pk => pk }

/-- The committee resolved by `c4client` for cycle 8. -/
def c4info : StacksNodeInfo :=
  match get_stacks_node_info ⟨false, 5⟩ c4client 8 with
  | .ok (some info) => info
  | _ => ⟨0, 0, 0, 0, [], fun _ => [], fun _ => none, fun _ => none⟩

/-- Instance of C4 (the spec's scenario, 10 equal-weight signers): signer 3
owns exactly key id 4 (the block `{4}`), and there is no signer 12. -/
theorem c4_key_id_assignment_witness :
    (4 ∈ c4info.signer_key_ids 3 ↔
      1 + sumSlots (c4entries.take 3) ≤ 4 ∧
      4 < 1 + sumSlots (c4entries.take 3) + (c4entries.getD 3 ⟨[], 0⟩).slots) ∧
    c4info.signer_key_ids 12 = [] :=
  ⟨(c4_key_id_assignment ⟨false, 5⟩ c4client 8 c4info c4entries rfl rfl).1 3 (by decide) 4,
   (c4_key_id_assignment ⟨false, 5⟩ c4client 8 c4info c4entries rfl rfl).2 12 (by decide)⟩

end Blockstore
